import Mathlib

/-
Verification of the near-forms WASI core (wasi-near-forms-ark).

The development shallowly embeds the Rust sources:
  - crypto.rs: key derivation (`derive_form_privkey`), the EC01 envelope decrypt
    pipeline (`decrypt_blob` / `decrypt_ecdh`) and `parse_private_key`;
  - types.rs: the action/input/output data model and the derived action parser;
  - main.rs: the `handle_read_responses` and `handle_submit_form` handlers and
    their batch-decrypt loop.

Bytes are `Nat` values below 256 and byte sequences are `List Nat`. Scalars of
secp256k1 are `Nat` below the group order. External library functions the code
calls (sha2, hkdf, chacha20poly1305, libsecp256k1, hex) are embedded concretely
from their specifications; `serde_json::from_slice::<Value>` for the decrypted
answer payload is kept as an explicit function parameter `jsonParse`. A Rust
panic (an out-of-bounds slice or a bad `Nonce::from_slice` length) is modelled
as `none` in an `Option`-valued result. Where a handler's observable behaviour
includes which collaborators or key material it touched, the embedding returns
the list of such events alongside the result.

Recursions that structurally consume a halving or chunked argument carry an
explicit fuel argument (always sufficient by construction) so that every
definition reduces in the kernel.
-/

/-- Decidable equality for `Except`. -/
instance {e a : Type} [DecidableEq e] [DecidableEq a] : DecidableEq (Except e a) := fun x y =>
  match x, y with
  | .ok u, .ok v =>
    if h : u = v then .isTrue (by rw [h]) else .isFalse (fun hc => by cases hc; exact h rfl)
  | .error u, .error v =>
    if h : u = v then .isTrue (by rw [h]) else .isFalse (fun hc => by cases hc; exact h rfl)
  | .ok _, .error _ => .isFalse (fun hc => by cases hc)
  | .error _, .ok _ => .isFalse (fun hc => by cases hc)

/-- Big-endian interpretation of a byte list as a natural number. -/
def beToNat (l : List Nat) : Nat := l.foldl (fun a b => a * 256 + b) 0

/-- Big-endian encoding of `x` into exactly `k` bytes (truncating above 2^(8k)). -/
def natToBe : Nat → Nat → List Nat
  | 0, _ => []
  | k + 1, x => natToBe k (x / 256) ++ [x % 256]

/-- Little-endian interpretation of a byte list. -/
def leToNat (l : List Nat) : Nat := l.foldr (fun b a => a * 256 + b) 0

/-- Little-endian encoding of `x` into exactly `k` bytes. -/
def natToLe : Nat → Nat → List Nat
  | 0, _ => []
  | k + 1, x => x % 256 :: natToLe k (x / 256)

/-- Fuelled worker for `chunksOf`. -/
def chunksOfGo : Nat → Nat → List Nat → List (List Nat)
  | 0, _, _ => []
  | fuel + 1, n, l =>
    if l = [] ∨ n = 0 then []
    else l.take n :: chunksOfGo fuel n (l.drop n)

/-- Split a list into consecutive chunks of `n` elements (`n > 0`). -/
def chunksOf (n : Nat) (l : List Nat) : List (List Nat) :=
  chunksOfGo (l.length + 1) n l

/-- 2^32, the modulus for 32-bit words. -/
def M32 : Nat := 4294967296

/-- Right rotation of a 32-bit word. -/
def rotr32 (n x : Nat) : Nat := ((x >>> n) ||| (x <<< (32 - n))) % M32

/-- Fuelled worker for `powMod`, halving the exponent. -/
def powModGo : Nat → Nat → Nat → Nat → Nat
  | 0, _, _, m => 1 % m
  | fuel + 1, a, b, m =>
    if b = 0 then 1 % m
    else
      let h := powModGo fuel a (b / 2) m
      let h2 := h * h % m
      if b % 2 = 1 then h2 * (a % m) % m else h2

/-- Modular exponentiation by repeated squaring. -/
def powMod (a b m : Nat) : Nat := powModGo (b + 1) a b m

/- ==================== SHA-256 (the sha2 crate) ==================== -/

/-- The eight SHA-256 working variables. -/
structure Sha256State where
  a : Nat
  b : Nat
  c : Nat
  d : Nat
  e : Nat
  f : Nat
  g : Nat
  h : Nat

def sha256InitState : Sha256State :=
  ⟨1779033703, 3144134277, 1013904242, 2773480762,
   1359893119, 2600822924, 528734635, 1541459225⟩

/-- The SHA-256 round constants. -/
def sha256K : List Nat :=
  [1116352408, 1899447441, 3049323471, 3921009573, 961987163,
   1508970993, 2453635748, 2870763221, 3624381080, 310598401,
   607225278, 1426881987, 1925078388, 2162078206, 2614888103,
   3248222580, 3835390401, 4022224774, 264347078, 604807628,
   770255983, 1249150122, 1555081692, 1996064986, 2554220882,
   2821834349, 2952996808, 3210313671, 3336571891, 3584528711,
   113926993, 338241895, 666307205, 773529912, 1294757372,
   1396182291, 1695183700, 1986661051, 2177026350, 2456956037,
   2730485921, 2820302411, 3259730800, 3345764771, 3516065817,
   3600352804, 4094571909, 275423344, 430227734, 506948616,
   659060556, 883997877, 958139571, 1322822218, 1537002063,
   1747873779, 1955562222, 2024104815, 2227730452, 2361852424,
   2428436474, 2756734187, 3204031479, 3329325298]

def sha256BigSigma0 (x : Nat) : Nat := rotr32 2 x ^^^ rotr32 13 x ^^^ rotr32 22 x

def sha256BigSigma1 (x : Nat) : Nat := rotr32 6 x ^^^ rotr32 11 x ^^^ rotr32 25 x

def sha256SmallSigma0 (x : Nat) : Nat := rotr32 7 x ^^^ rotr32 18 x ^^^ (x >>> 3)

def sha256SmallSigma1 (x : Nat) : Nat := rotr32 17 x ^^^ rotr32 19 x ^^^ (x >>> 10)

/-- Extend the 16 message words to the full 64-word schedule. -/
def sha256Extend : Nat → List Nat → List Nat
  | 0, w => w
  | n + 1, w =>
    let len := w.length
    let next := (sha256SmallSigma1 (w.getD (len - 2) 0) + w.getD (len - 7) 0 +
                 sha256SmallSigma0 (w.getD (len - 15) 0) + w.getD (len - 16) 0) % M32
    sha256Extend n (w ++ [next])

/-- One SHA-256 round with round constant and schedule word `kw`. -/
def sha256Round (st : Sha256State) (kw : Nat × Nat) : Sha256State :=
  let ch := (st.e &&& st.f) ^^^ ((st.e ^^^ 4294967295) &&& st.g)
  let maj := (st.a &&& st.b) ^^^ (st.a &&& st.c) ^^^ (st.b &&& st.c)
  let t1 := (st.h + sha256BigSigma1 st.e + ch + kw.1 + kw.2) % M32
  let t2 := (sha256BigSigma0 st.a + maj) % M32
  ⟨(t1 + t2) % M32, st.a, st.b, st.c, (st.d + t1) % M32, st.e, st.f, st.g⟩

/-- Process one 64-byte block. -/
def sha256Compress (st : Sha256State) (block : List Nat) : Sha256State :=
  let w0 := (chunksOf 4 block).map beToNat
  let w := sha256Extend 48 w0
  let r := (List.zip sha256K w).foldl sha256Round st
  ⟨(st.a + r.a) % M32, (st.b + r.b) % M32, (st.c + r.c) % M32, (st.d + r.d) % M32,
   (st.e + r.e) % M32, (st.f + r.f) % M32, (st.g + r.g) % M32, (st.h + r.h) % M32⟩

/-- SHA-256 padding: append 0x80, zeros to 56 mod 64, then the 8-byte bit length. -/
def sha256Pad (msg : List Nat) : List Nat :=
  let len := msg.length
  let zeros := (64 + 55 - len % 64) % 64
  msg ++ [0x80] ++ List.replicate zeros 0 ++ natToBe 8 (8 * len)

/-- SHA-256 of a byte sequence, as 32 bytes (checked against the FIPS 180-4 and
RFC 6234 test vectors). -/
def sha256 (msg : List Nat) : List Nat :=
  let st := (chunksOf 64 (sha256Pad msg)).foldl sha256Compress sha256InitState
  natToBe 4 st.a ++ natToBe 4 st.b ++ natToBe 4 st.c ++ natToBe 4 st.d ++
  natToBe 4 st.e ++ natToBe 4 st.f ++ natToBe 4 st.g ++ natToBe 4 st.h

/- ==================== secp256k1 (the libsecp256k1 crate) ==================== -/

/-- The secp256k1 base-field prime. -/
def secpP : Nat := 0xfffffffffffffffffffffffffffffffffffffffffffffffffffffffefffffc2f

/-- The secp256k1 group order. -/
def secpN : Nat := 0xfffffffffffffffffffffffffffffffebaaedce6af48a03bbfd25e8cd0364141

/-- A point on secp256k1: the point at infinity or affine coordinates mod `secpP`. -/
inductive Point where
  | inf : Point
  | affine (x y : Nat) : Point
deriving DecidableEq

/-- Inverse in the base field, via Fermat's little theorem. -/
def modInv (a : Nat) : Nat := powMod a (secpP - 2) secpP

/-- Affine point addition (the full group law, including doubling and inverses);
checked against the generator's small multiples and the group order. -/
def pointAdd (p q : Point) : Point :=
  match p, q with
  | .inf, q => q
  | p, .inf => p
  | .affine x1 y1, .affine x2 y2 =>
    if x1 = x2 then
      if (y1 + y2) % secpP = 0 then .inf
      else
        let lam := (3 * x1 % secpP * x1 % secpP) * modInv (2 * y1 % secpP) % secpP
        let x3 := (lam * lam + 2 * secpP - x1 - x2) % secpP
        let y3 := (lam * ((x1 + secpP - x3) % secpP) + (secpP - y1 % secpP)) % secpP
        .affine x3 y3
    else
      let lam := ((y2 + secpP - y1) % secpP) * modInv ((x2 + secpP - x1) % secpP) % secpP
      let x3 := (lam * lam + 2 * secpP - x1 - x2) % secpP
      let y3 := (lam * ((x1 + secpP - x3) % secpP) + (secpP - y1 % secpP)) % secpP
      .affine x3 y3

/-- Fuelled worker for `scalarMul`, halving the scalar. -/
def scalarMulGo : Nat → Nat → Point → Point
  | 0, _, _ => .inf
  | fuel + 1, k, p =>
    if k = 0 then .inf
    else
      let h := scalarMulGo fuel (k / 2) p
      let d := pointAdd h h
      if k % 2 = 1 then pointAdd d p else d

/-- Scalar multiplication by double-and-add. -/
def scalarMul (k : Nat) (p : Point) : Point := scalarMulGo (k + 1) k p

/-- Errors of the libsecp256k1 library, with their Rust `Debug` rendering. -/
inductive SecpErr where
  | invalidPublicKey
  | invalidSecretKey
  | invalidInputLength
  | tweakOutOfRange
deriving DecidableEq

def secpErrRepr : SecpErr → String
  | .invalidPublicKey => "InvalidPublicKey"
  | .invalidSecretKey => "InvalidSecretKey"
  | .invalidInputLength => "InvalidInputLength"
  | .tweakOutOfRange => "TweakOutOfRange"

/-- `libsecp256k1::PublicKey::parse_slice(bytes, None)` on a 33-byte slice: read as a
compressed point; the prefix byte selects the parity of `y`, the x-coordinate must be
a field element, and the curve equation `y^2 = x^3 + 7` must have a square root of the
requested parity (any other slice length is a length error). -/
def parsePoint (b : List Nat) : Except SecpErr Point :=
  if b.length ≠ 33 then .error .invalidInputLength
  else
    match b with
    | [] => .error .invalidInputLength
    | pre :: rest =>
      if pre ≠ 2 ∧ pre ≠ 3 then .error .invalidPublicKey
      else
        let x := beToNat rest
        if secpP ≤ x then .error .invalidPublicKey
        else
          let y2 := (x * x % secpP * x + 7) % secpP
          let y0 := powMod y2 ((secpP + 1) / 4) secpP
          if y0 * y0 % secpP ≠ y2 then .error .invalidPublicKey
          else
            let y := if y0 % 2 = pre % 2 then y0 else (secpP - y0) % secpP
            .ok (.affine x y)

/-- `PublicKey::serialize_compressed`: parity prefix then the 32 x-coordinate bytes.
The point at infinity cannot occur in a `PublicKey`; the value chosen for it here is
irrelevant (it is unreachable in the pipeline below). -/
def serializeCompressed : Point → List Nat
  | .inf => List.replicate 33 0
  | .affine x y => (2 + y % 2) :: natToBe 32 x

/-- `libsecp256k1::SecretKey::parse_slice`: exactly 32 bytes, big-endian scalar,
rejected when zero or not below the group order. -/
def secretKeyParse (b : List Nat) : Except SecpErr Nat :=
  if b.length ≠ 32 then .error .invalidInputLength
  else
    let s := beToNat b
    if s = 0 ∨ secpN ≤ s then .error .invalidSecretKey
    else .ok s

/-- `SecretKey::tweak_add_assign`: scalar addition mod the group order; fails when the
sum is zero (which would violate the nonzero secret-key invariant). -/
def tweakAdd (s t : Nat) : Except SecpErr Nat :=
  if (s + t) % secpN = 0 then .error .tweakOutOfRange
  else .ok ((s + t) % secpN)

/-- `PublicKey::tweak_mul_assign`: multiply the point by a scalar; fails on a zero
scalar or if the result is the point at infinity (not representable as a key). -/
def tweakMul (p : Point) (s : Nat) : Except SecpErr Point :=
  if s % secpN = 0 then .error .tweakOutOfRange
  else
    match scalarMul (s % secpN) p with
    | .inf => .error .invalidPublicKey
    | r => .ok r

/- ============ HMAC-SHA256 / HKDF-SHA256 (the hkdf crate) ============ -/

/-- HMAC-SHA256 (keys of at most one block are zero-padded; longer keys hashed).
Checked against the RFC 4231 test vectors. -/
def hmacSha256 (key msg : List Nat) : List Nat :=
  let k0 := if key.length ≤ 64 then key ++ List.replicate (64 - key.length) 0
            else sha256 key ++ List.replicate 32 0
  let ipad := k0.map (fun b => b ^^^ 0x36)
  let opad := k0.map (fun b => b ^^^ 0x5c)
  sha256 (opad ++ sha256 (ipad ++ msg))

/-- HKDF-SHA256 extract with absent salt (`Hkdf::<Sha256>::new(None, ikm)`): the salt
defaults to 32 zero bytes. -/
def hkdfExtractNoSalt (ikm : List Nat) : List Nat :=
  hmacSha256 (List.replicate 32 0) ikm

/-- HKDF-SHA256 expand (`hk.expand(info, okm)`) for a 32-byte output: fails only when
the requested length exceeds 255 hash blocks (it does not here); the output is the
first block T(1) = HMAC(prk, info || 0x01). Checked against the RFC 5869 vectors. -/
def hkdfExpand32 (prk info : List Nat) : Except String (List Nat) :=
  if 32 > 255 * 32 then .error "InvalidLength"
  else .ok (hmacSha256 prk (info ++ [1]))

/- ======== ChaCha20-Poly1305 (the chacha20poly1305 crate, RFC 8439) ======== -/

/-- One ChaCha quarter round on positions `(ia, ib, ic, id)` of the 16-word state. -/
def chachaQuarter (st : List Nat) (ia ib ic id : Nat) : List Nat :=
  let a := st.getD ia 0
  let b := st.getD ib 0
  let c := st.getD ic 0
  let d := st.getD id 0
  let a := (a + b) % M32
  let d := ((d ^^^ a) <<< 16 ||| (d ^^^ a) >>> 16) % M32
  let c := (c + d) % M32
  let b := ((b ^^^ c) <<< 12 ||| (b ^^^ c) >>> 20) % M32
  let a := (a + b) % M32
  let d := ((d ^^^ a) <<< 8 ||| (d ^^^ a) >>> 24) % M32
  let c := (c + d) % M32
  let b := ((b ^^^ c) <<< 7 ||| (b ^^^ c) >>> 25) % M32
  ((((st.set ia a).set ib b).set ic c).set id d)

/-- One ChaCha double round: four column rounds then four diagonal rounds. -/
def chachaDoubleRound (st : List Nat) : List Nat :=
  let st := chachaQuarter st 0 4 8 12
  let st := chachaQuarter st 1 5 9 13
  let st := chachaQuarter st 2 6 10 14
  let st := chachaQuarter st 3 7 11 15
  let st := chachaQuarter st 0 5 10 15
  let st := chachaQuarter st 1 6 11 12
  let st := chachaQuarter st 2 7 8 13
  let st := chachaQuarter st 3 4 9 14
  st

/-- The ChaCha20 block function: 32-byte key, word counter, 12-byte nonce, producing
64 keystream bytes (checked against the RFC 8439 section 2.3.2 vector). -/
def chachaBlock (key : List Nat) (counter : Nat) (nonce : List Nat) : List Nat :=
  let init : List Nat :=
    [0x61707865, 0x3320646e, 0x79622d32, 0x6b206574] ++
    ((chunksOf 4 key).map leToNat) ++
    [counter % M32] ++
    ((chunksOf 4 nonce).map leToNat)
  let rounds := Nat.rec init (fun _ st => chachaDoubleRound st) 10
  let final := (List.zip init rounds).map (fun p => (p.1 + p.2) % M32)
  final.foldr (fun w acc => natToLe 4 w ++ acc) []

/-- ChaCha20 keystream of `n` bytes starting at block `counter`. -/
def chachaKeystream (key : List Nat) (nonce : List Nat) (counter n : Nat) : List Nat :=
  (List.range ((n + 63) / 64)).foldr (fun i acc => chachaBlock key (counter + i) nonce ++ acc) []
    |>.take n

/-- The Poly1305 prime 2^130 - 5. -/
def polyP : Nat := 1361129467683753853853498429727072845819

/-- Poly1305 MAC: key = r (clamped) || s, processing 16-byte blocks (checked against
the RFC 8439 section 2.5.2 vector). -/
def poly1305 (key msg : List Nat) : List Nat :=
  let r := leToNat (key.take 16) &&& 0x0ffffffc0ffffffc0ffffffc0fffffff
  let s := leToNat ((key.drop 16).take 16)
  let acc := (chunksOf 16 msg).foldl
    (fun acc block => (acc + leToNat block + 256 ^ block.length) * r % polyP) 0
  natToLe 16 ((acc + s) % (2 ^ 128 * 2))

/-- Zero padding of a byte sequence up to a multiple of 16 bytes. -/
def pad16 (l : List Nat) : List Nat :=
  List.replicate ((16 - l.length % 16) % 16) 0

/-- The RFC 8439 AEAD tag over associated data and ciphertext, with the Poly1305 key
drawn from ChaCha20 block 0 (checked against the RFC 8439 section 2.8.2 vector). -/
def chachaPolyTag (key nonce aad ct : List Nat) : List Nat :=
  let polyKey := (chachaBlock key 0 nonce).take 32
  poly1305 polyKey (aad ++ pad16 aad ++ ct ++ pad16 ct ++
    natToLe 8 aad.length ++ natToLe 8 ct.length)

/-- `ChaCha20Poly1305::decrypt(nonce, data)` with empty associated data: split off the
trailing 16-byte tag, verify it over the ciphertext, then decrypt with the keystream
starting at block counter 1. `none` is the crate's opaque failure. -/
def chachaPolyDecrypt (key nonce data : List Nat) : Option (List Nat) :=
  if data.length < 16 then none
  else
    let ct := data.take (data.length - 16)
    let tag := data.drop (data.length - 16)
    if chachaPolyTag key nonce [] ct ≠ tag then none
    else some ((List.zip ct (chachaKeystream key nonce 1 ct.length)).map (fun p => p.1 ^^^ p.2))

/- ==================== hex (the hex crate) ==================== -/

/-- Errors of `hex::decode` with their `Display` rendering. -/
inductive HexErr where
  | oddLength
  | invalidChar (c : Char) (index : Nat)
deriving DecidableEq

def hexErrRepr : HexErr → String
  | .oddLength => "Odd number of digits"
  | .invalidChar c i => "Invalid character " ++ String.singleton c ++ " at position " ++ toString i

/-- Value of one hex digit, if valid. -/
def hexDigit (c : Char) : Option Nat :=
  if '0' ≤ c ∧ c ≤ '9' then some (c.toNat - 48)
  else if 'a' ≤ c ∧ c ≤ 'f' then some (c.toNat - 87)
  else if 'A' ≤ c ∧ c ≤ 'F' then some (c.toNat - 55)
  else none

/-- Byte values of an even-length character list, reporting the first bad character. -/
def hexPairs : Nat → List Char → Except HexErr (List Nat)
  | _, [] => .ok []
  | i, c1 :: c2 :: rest =>
    match hexDigit c1 with
    | none => .error (.invalidChar c1 i)
    | some h =>
      match hexDigit c2 with
      | none => .error (.invalidChar c2 (i + 1))
      | some l => (hexPairs (i + 2) rest).map (fun bs => (h * 16 + l) :: bs)
  | i, [c] => .error (.invalidChar c i)

/-- `hex::decode`: an odd input length is rejected first, then digits are decoded
pairwise. -/
def hexDecode (s : String) : Except HexErr (List Nat) :=
  if s.data.length % 2 ≠ 0 then .error .oddLength
  else hexPairs 0 s.data

/- ==================== UTF-8 (str::as_bytes) ==================== -/

/-- UTF-8 encoding of a single character. -/
def utf8Char (c : Char) : List Nat :=
  let n := c.toNat
  if n < 0x80 then [n]
  else if n < 0x800 then [0xc0 ||| (n >>> 6), 0x80 ||| (n &&& 0x3f)]
  else if n < 0x10000 then
    [0xe0 ||| (n >>> 12), 0x80 ||| ((n >>> 6) &&& 0x3f), 0x80 ||| (n &&& 0x3f)]
  else
    [0xf0 ||| (n >>> 18), 0x80 ||| ((n >>> 12) &&& 0x3f),
     0x80 ||| ((n >>> 6) &&& 0x3f), 0x80 ||| (n &&& 0x3f)]

/-- The UTF-8 bytes of a string (Rust `str::as_bytes`). -/
def strBytes (s : String) : List Nat :=
  s.data.foldr (fun c acc => utf8Char c ++ acc) []

/- ==================== crypto.rs ==================== -/

/-- `const DERIVATION_PREFIX: &[u8] = b"near-forms:v1:"` (crypto.rs). -/
def derivationDomain : List Nat := strBytes "near-forms:v1:"

/-- `const ECDH_MAGIC: &[u8; 4] = b"EC01"` (crypto.rs). -/
def ec01Magic : List Nat := [69, 67, 48, 49]

/-- `parse_private_key` (crypto.rs): hex-decode then `SecretKey::parse_slice`.
Errors carry the `Display`/`format!` strings the Rust code produces. -/
def parsePrivateKey (hexStr : String) : Except String Nat :=
  match hexDecode hexStr with
  | .error e => .error (hexErrRepr e)
  | .ok bytes =>
    match secretKeyParse bytes with
    | .error e => .error ("Invalid private key: " ++ secpErrRepr e)
    | .ok k => .ok k

/-- The SHA-256 tweak `derive_form_privkey` computes for a form id:
`SHA256(DERIVATION_PREFIX || form_id)` read as a big-endian scalar. -/
def tweakOf (formId : String) : Nat :=
  beToNat (sha256 (derivationDomain ++ strBytes formId))

/-- `derive_form_privkey` (crypto.rs): hash the domain-separated form id to a tweak,
parse it as a secret key (rejecting zero and values at or above the group order), and
add it to the master key (`tweak_add_assign`, rejecting a zero sum). -/
def deriveFormPrivkey (masterPrivkey : Nat) (formId : String) : Except String Nat :=
  match secretKeyParse (sha256 (derivationDomain ++ strBytes formId)) with
  | .error e => .error ("Failed to create tweak: " ++ secpErrRepr e)
  | .ok tweak =>
    match tweakAdd masterPrivkey tweak with
    | .error e => .error ("Failed to derive private key: " ++ secpErrRepr e)
    | .ok k => .ok k

/-- Rust slice `&b[start..stop]`: defined only when `start ≤ stop ≤ b.length`; an
out-of-range access is a panic, modelled as `none`. -/
def slice? (b : List Nat) (start stop : Nat) : Option (List Nat) :=
  if start ≤ stop ∧ stop ≤ b.length then some ((b.take stop).drop start) else none

/-- Rust slice `&b[start..]`: defined only when `start ≤ b.length`. -/
def sliceFrom? (b : List Nat) (start : Nat) : Option (List Nat) :=
  if start ≤ b.length then some (b.drop start) else none

/-- The cryptographic operations `decrypt_ecdh` can perform, in order: ECDH scalar
multiplication, HKDF key derivation, AEAD decryption. -/
inductive CryptOp where
  | ecdhMul
  | hkdfDerive
  | aeadDecrypt
deriving DecidableEq

def tooShortMsg (n : Nat) : String :=
  "EC01 data too short: " ++ toString n ++ " bytes, need at least 65"

def ephPubkeyMsg (e : SecpErr) : String := "Invalid ephemeral pubkey: " ++ secpErrRepr e

def ecdhFailedMsg (e : SecpErr) : String := "ECDH failed: " ++ secpErrRepr e

def hkdfExpandFailedMsg : String := "HKDF expand failed"

def cipherCreateMsg : String := "Failed to create cipher: InvalidLength"

def chachaFailedMsg : String := "ChaCha20-Poly1305 decryption failed: Error"

def magicErrMsg : String := "Invalid encryption format: expected EC01 magic bytes"

/-- `decrypt_ecdh` (crypto.rs): the result paired with the trace of cryptographic
operations performed; `none` models a Rust panic (an unguarded slice or a bad
`Nonce::from_slice` length). -/
def decryptEcdh (userPrivkey : Nat) (encrypted : List Nat) :
    Option (Except String (List Nat) × List CryptOp) :=
  if encrypted.length < 65 then some (.error (tooShortMsg encrypted.length), [])
  else
    match slice? encrypted 4 37 with
    | none => none
    | some ephemeralPubkeyBytes =>
      match parsePoint ephemeralPubkeyBytes with
      | .error e => some (.error (ephPubkeyMsg e), [])
      | .ok pt =>
        match tweakMul pt userPrivkey with
        | .error e => some (.error (ecdhFailedMsg e), [.ecdhMul])
        | .ok sharedPoint =>
          let sharedX := (serializeCompressed sharedPoint).drop 1
          let prk := hkdfExtractNoSalt sharedX
          match hkdfExpand32 prk (strBytes "near-forms:v1:ecdh") with
          | .error _ => some (.error hkdfExpandFailedMsg, [.ecdhMul, .hkdfDerive])
          | .ok key =>
            match slice? encrypted 37 49 with
            | none => none
            | some nonceBytes =>
              match sliceFrom? encrypted 49 with
              | none => none
              | some ciphertext =>
                if key.length ≠ 32 then
                  some (.error cipherCreateMsg, [.ecdhMul, .hkdfDerive])
                else if nonceBytes.length ≠ 12 then none
                else
                  match chachaPolyDecrypt key nonceBytes ciphertext with
                  | none => some (.error chachaFailedMsg, [.ecdhMul, .hkdfDerive, .aeadDecrypt])
                  | some plain => some (.ok plain, [.ecdhMul, .hkdfDerive, .aeadDecrypt])

/-- `decrypt_blob` (crypto.rs): magic-byte check, then `decrypt_ecdh`. -/
def decryptBlob (formPrivkey : Nat) (encrypted : List Nat) :
    Option (Except String (List Nat) × List CryptOp) :=
  if encrypted.length ≤ 4 then some (.error magicErrMsg, [])
  else
    match slice? encrypted 0 4 with
    | none => none
    | some magic =>
      if magic ≠ ec01Magic then some (.error magicErrMsg, [])
      else decryptEcdh formPrivkey encrypted

/- ==================== types.rs ==================== -/

/-- JSON values (the shape of `serde_json::Value`; numbers abstracted to `Int`). -/
inductive JsonValue where
  | null
  | bool (b : Bool)
  | num (n : Int)
  | str (s : String)
  | arr (elems : List JsonValue)
  | obj (fields : List (String × JsonValue))

/-- `SubmitFormInput` (types.rs). -/
structure SubmitFormInput where
  encrypted_answers : String

/-- `Input` (types.rs): the action enum **as declared there**, with exactly two
variants (`ReadResponses` carries an empty struct, elided). -/
inductive Input where
  | readResponses : Input
  | submitForm (input : SubmitFormInput) : Input

/-- The derived internally-tagged (`#[serde(tag = "action")]`) deserializer of `Input`,
modelled on the tag string and the optional `encrypted_answers` field of the request
object: only the two declared variant names are accepted. -/
def parseInput (action : String) (encryptedAnswers : Option String) : Except String Input :=
  if action = "ReadResponses" then .ok .readResponses
  else if action = "SubmitForm" then
    match encryptedAnswers with
    | some s => .ok (.submitForm ⟨s⟩)
    | none => .error "missing field `encrypted_answers`"
  else .error ("unknown variant `" ++ action ++ "`, expected `ReadResponses` or `SubmitForm`")

/-- `Response` (types.rs). -/
structure Response where
  submitter_id : String
  answers : JsonValue
  submitted_at : String

/-- `ReadResponsesOutput` (types.rs). -/
structure ReadResponsesOutput where
  responses : List Response
  skipped_count : Nat

/-- `SubmitFormOutput` (types.rs). -/
structure SubmitFormOutput where
  success : Bool
  submission_id : String

/-- `EncryptedSubmission` (types.rs). -/
structure EncryptedSubmission where
  submitter_id : String
  encrypted_blob : String
  submitted_at : String

/-- `FormMetadata` (types.rs). -/
structure FormMetadata where
  creator_id : String

/- ==================== main.rs ==================== -/

/-- `const FORM_ID` (main.rs). -/
def formIdConst : String := "daf14a0c-20f7-4199-a07b-c6456d53ef2d"

/-- Observable collaborator and key-material operations of the handlers. -/
inductive Event where
  | fetchForm
  | loadMasterKey
  | deriveKey
  | fetchSubmissions
  | createSubmission
deriving DecidableEq

/-- The ambient state a single invocation reads: the verified caller (the OutLayer
signer), the environment variables, and the responses the db-api collaborator would
give to this invocation's calls. -/
structure Env where
  signer : Option String
  databaseUrl : Option String
  apiSecret : Option String
  masterKeyHex : Option String
  getForm : Except String FormMetadata
  getSubmissions : Except String (List EncryptedSubmission)
  createSubmissionRes : Except String String

/-- `get_database_url` (main.rs). -/
def getDatabaseUrl (env : Env) : Except String String :=
  match env.databaseUrl with
  | some u => .ok u
  | none => .error "DATABASE_API_URL environment variable not found"

/-- `get_api_secret` (main.rs). -/
def getApiSecret (env : Env) : Except String String :=
  match env.apiSecret with
  | some s => .ok s
  | none => .error "API_SECRET or DATABASE_API_SECRET environment variable not found"

/-- `load_master_key` (main.rs). -/
def loadMasterKey (env : Env) : Except String Nat :=
  match env.masterKeyHex with
  | some h => parsePrivateKey h
  | none => .error "Master key (PROTECTED_MASTER_KEY) not found in env"

/-- The per-record closure in `handle_read_responses` (main.rs, lines 113-128):
hex-decode the stored blob, decrypt it, parse the plaintext as JSON. `jsonParse`
stands for the external `serde_json::from_slice::<serde_json::Value>`. -/
def processSubmission (jsonParse : List Nat → Except String JsonValue) (formPrivkey : Nat)
    (submission : EncryptedSubmission) : Option (Except String Response) :=
  match hexDecode submission.encrypted_blob with
  | .error e => some (.error ("Invalid hex ciphertext: " ++ hexErrRepr e))
  | .ok ciphertext =>
    match decryptBlob formPrivkey ciphertext with
    | none => none
    | some (.error e, _) => some (.error ("Decryption failed: " ++ e))
    | some (.ok plaintext, _) =>
      match jsonParse plaintext with
      | .error e => some (.error ("Invalid JSON in decrypted answers: " ++ e))
      | .ok answers =>
        some (.ok ⟨submission.submitter_id, answers, submission.submitted_at⟩)

/-- The batch loop of `handle_read_responses` (main.rs, lines 108-136): successes are
collected in order, failures only increment `skipped_count`; a panic (`none`) in a
step aborts the invocation. -/
def decryptLoop (step : EncryptedSubmission → Option (Except String Response)) :
    List EncryptedSubmission → Option (List Response × Nat)
  | [] => some ([], 0)
  | s :: rest =>
    match step s with
    | none => none
    | some (.ok r) => (decryptLoop step rest).map (fun p => (r :: p.1, p.2))
    | some (.error _) => (decryptLoop step rest).map (fun p => (p.1, p.2 + 1))

/-- `handle_read_responses` (main.rs): authenticate, fetch the form, check the caller
is the creator, load the master key, fetch submissions, derive the form key, then
decrypt the batch. Paired with the trace of collaborator/key events performed. -/
def handleReadResponses (jsonParse : List Nat → Except String JsonValue) (env : Env) :
    Option (Except String ReadResponsesOutput × List Event) :=
  match env.signer with
  | none => some (.error "Authentication required - signer_account_id not available", [])
  | some callerId =>
    match getDatabaseUrl env with
    | .error e => some (.error e, [])
    | .ok _ =>
      match env.getForm with
      | .error e => some (.error e, [.fetchForm])
      | .ok form =>
        if callerId ≠ form.creator_id then
          some (.error "Not authorized to read responses", [.fetchForm])
        else
          match loadMasterKey env with
          | .error e => some (.error e, [.fetchForm, .loadMasterKey])
          | .ok masterPrivkey =>
            match getApiSecret env with
            | .error e => some (.error e, [.fetchForm, .loadMasterKey])
            | .ok _ =>
              match env.getSubmissions with
              | .error e => some (.error e, [.fetchForm, .loadMasterKey, .fetchSubmissions])
              | .ok submissions =>
                match deriveFormPrivkey masterPrivkey formIdConst with
                | .error e =>
                  some (.error e, [.fetchForm, .loadMasterKey, .fetchSubmissions, .deriveKey])
                | .ok formPrivkey =>
                  match decryptLoop (processSubmission jsonParse formPrivkey) submissions with
                  | none => none
                  | some (responses, skipped) =>
                    some (.ok ⟨responses, skipped⟩,
                      [.fetchForm, .loadMasterKey, .fetchSubmissions, .deriveKey])

def submitAuthMsg : String := "Authentication required - wallet signature not valid"

def submitHexMsg (e : HexErr) : String := "Invalid hex in encrypted_answers: " ++ hexErrRepr e

def submitTooShortMsg (n : Nat) : String :=
  "encrypted_answers too short: " ++ toString n ++ " bytes, need at least 65"

def submitMagicMsg : String := "encrypted_answers must start with EC01 magic bytes"

def submitPointMsg (e : SecpErr) : String :=
  "Invalid ephemeral public key in EC01 blob: " ++ secpErrRepr e

def submitTooLargeMsg (n : Nat) : String :=
  "encrypted_answers too large: " ++ toString n ++ " bytes (max: 204800 bytes)"

/-- `handle_submit_form` (main.rs): authenticate the submitter, hex-decode and
structurally validate the EC01 blob (minimum length, magic, ephemeral point), enforce
the 200 KB limit, then store the hex blob via the collaborator. All slice reads are
guarded by the preceding minimum-length check, so no panic case arises. -/
def handleSubmitForm (env : Env) (input : SubmitFormInput) :
    Except String SubmitFormOutput × List Event :=
  match env.signer with
  | none => (.error submitAuthMsg, [])
  | some _ =>
    match hexDecode input.encrypted_answers with
    | .error e => (.error (submitHexMsg e), [])
    | .ok encryptedBytes =>
      if encryptedBytes.length < 65 then (.error (submitTooShortMsg encryptedBytes.length), [])
      else if encryptedBytes.take 4 ≠ ec01Magic then (.error submitMagicMsg, [])
      else
        match parsePoint ((encryptedBytes.drop 4).take 33) with
        | .error e => (.error (submitPointMsg e), [])
        | .ok _ =>
          if encryptedBytes.length > 204800 then
            (.error (submitTooLargeMsg encryptedBytes.length), [])
          else
            match getDatabaseUrl env with
            | .error e => (.error e, [])
            | .ok _ =>
              match getApiSecret env with
              | .error e => (.error e, [])
              | .ok _ =>
                match env.createSubmissionRes with
                | .error e => (.error e, [.createSubmission])
                | .ok submissionId => (.ok ⟨true, submissionId⟩, [.createSubmission])


/-- The successful `Response` of one loop step, if any. -/
def okOf (r : Option (Except String Response)) : Option Response :=
  match r with
  | some (.ok resp) => some resp
  | _ => none

/-- A `jsonParse` instance for concrete checks: a parser accepting nothing. -/
def jsonParseNone : List Nat → Except String JsonValue := fun _ => .error "unsupported"

/-- Two concrete stored records that fail the per-record steps: invalid hex, and a
one-byte blob without the EC01 magic. -/
def sampleBadSubs : List EncryptedSubmission :=
  [⟨"alice.near", "zz", "2024-01-01T00:00:00Z"⟩,
   ⟨"bob.near", "00", "2024-01-02T00:00:00Z"⟩]

/-- A master scalar chosen so that `master + tweakOf "x"` is exactly the group order. -/
def tweakSumZeroMaster : Nat := secpN - tweakOf "x"

/-- An invocation environment with no verified caller. -/
def envNoSigner : Env :=
  ⟨none, none, none, none, .error "unreached", .error "unreached", .error "unreached"⟩

/-- The compressed secp256k1 generator point. -/
def genBytes : List Nat :=
  2 :: natToBe 32 0x79be667ef9dcbbac55a06295ce870b07029bfcdb2dce28d959f2815b16f81798

/-- A 65-byte EC01 envelope whose ephemeral-point field (33 zero bytes) is not a
valid compressed point. -/
def badPointEnvelope : List Nat := ec01Magic ++ List.replicate 61 0

/-- A 65-byte EC01 envelope with a valid ephemeral point (the generator), a zero
nonce, and an all-zero 16-byte tag, which fails AEAD authentication. -/
def badTagEnvelope : List Nat :=
  ec01Magic ++ genBytes ++ List.replicate 12 0 ++ List.replicate 16 0

/-- The scalar `derive_form_privkey` yields for master 1 and form id "x". -/
def sampleDerived : Nat := (1 + tweakOf "x") % secpN

/- ==================== helper lemmas ==================== -/

theorem natToBe_length (k x : Nat) : (natToBe k x).length = k := by
  induction k generalizing x with
  | zero => rfl
  | succ n ih => simp [natToBe, ih]

theorem sha256_length (msg : List Nat) : (sha256 msg).length = 32 := by
  simp [sha256, natToBe_length]

theorem slice?_eq (b : List Nat) (start stop : Nat) (h1 : start ≤ stop)
    (h2 : stop ≤ b.length) : slice? b start stop = some ((b.take stop).drop start) := by
  unfold slice?
  rw [if_pos ⟨h1, h2⟩]

theorem decryptEcdh_isSome (fp : Nat) (b : List Nat) : (decryptEcdh fp b).isSome := by
  unfold decryptEcdh
  by_cases h65 : b.length < 65
  · simp [h65]
  · have e1 : slice? b 4 37 = some ((b.take 37).drop 4) :=
      slice?_eq b 4 37 (by omega) (by omega)
    have e2 : slice? b 37 49 = some ((b.take 49).drop 37) :=
      slice?_eq b 37 49 (by omega) (by omega)
    have e3 : sliceFrom? b 49 = some (b.drop 49) := by
      unfold sliceFrom?
      rw [if_pos (by omega)]
    have hn : ((b.take 49).drop 37).length = 12 := by
      simp [List.length_drop, List.length_take]
      omega
    simp only [if_neg h65, e1, e2, e3, hn]
    repeat' split
    all_goals simp_all

theorem decryptBlob_isSome (fp : Nat) (b : List Nat) : (decryptBlob fp b).isSome := by
  unfold decryptBlob
  by_cases h4 : b.length ≤ 4
  · simp [h4]
  · have e0 : slice? b 0 4 = some ((b.take 4).drop 0) :=
      slice?_eq b 0 4 (by omega) (by omega)
    simp only [if_neg h4, e0]
    split
    · simp
    · exact decryptEcdh_isSome fp b

theorem processSubmission_isSome (jsonParse : List Nat → Except String JsonValue)
    (fp : Nat) (s : EncryptedSubmission) : (processSubmission jsonParse fp s).isSome := by
  unfold processSubmission
  split
  · simp
  · rename_i ct hct
    have hd := decryptBlob_isSome fp ct
    split
    · rename_i hnone
      rw [hnone] at hd
      simp at hd
    · simp
    · split <;> simp


theorem decryptLoop_eq (step : EncryptedSubmission → Option (Except String Response))
    (subs : List EncryptedSubmission) (h : ∀ s ∈ subs, (step s).isSome) :
    decryptLoop step subs =
      some (subs.filterMap (fun s => okOf (step s)),
            (subs.filter (fun s => !(okOf (step s)).isSome)).length) := by
  induction subs with
  | nil => rfl
  | cons s rest ih =>
    have hs : (step s).isSome := h s (by simp)
    have hrest : ∀ t ∈ rest, (step t).isSome := fun t ht => h t (by simp [ht])
    rw [decryptLoop]
    cases hstep : step s with
    | none => rw [hstep] at hs; simp at hs
    | some v =>
      cases v with
      | ok r => simp [ih hrest, List.filterMap_cons, List.filter_cons, hstep, okOf]
      | error e => simp [ih hrest, List.filterMap_cons, List.filter_cons, hstep, okOf]

theorem filterMap_okOf_length {α : Type} (f : α → Option Response) (l : List α) :
    (l.filterMap f).length = (l.filter (fun a => (f a).isSome)).length := by
  induction l with
  | nil => rfl
  | cons x xs ih =>
    cases hx : f x with
    | none => simp [List.filterMap_cons, List.filter_cons, hx, ih]
    | some r => simp [List.filterMap_cons, List.filter_cons, hx, ih]

theorem filter_not_length {α : Type} (p : α → Bool) (l : List α) :
    (l.filter (fun a => !p a)).length = l.length - (l.filter p).length := by
  induction l with
  | nil => rfl
  | cons x xs ih =>
    have hle := List.length_filter_le p xs
    cases hx : p x with
    | true =>
      simp [List.filter_cons, hx, ih]
      try omega
    | false =>
      simp [List.filter_cons, hx, ih]
      try omega

/-- C9: `decrypt_blob` is total over arbitrary byte-slice inputs: for every private
key and every byte sequence it returns a plaintext or an error and never hits the
panic case (`none`), because every slice access (magic bytes 0..4, ephemeral key
4..37, nonce 37..49, ciphertext 49..) is guarded by a preceding length check. -/
theorem decrypt_blob_total_on_all_inputs (fp : Nat) (b : List Nat) :
    (decryptBlob fp b).isSome := decryptBlob_isSome fp b

/-- C1: the batch decrypt loop of `handle_read_responses`, run on any sequence of
`N` fetched records of which exactly `K` succeed at all three per-record steps
(hex-decode, decrypt, JSON-parse), returns exactly those `K` responses in their
original relative order (the in-order `filterMap` of the successful steps) and
`skipped_count = N - K`; no failure aborts the loop or affects another record. -/
theorem batch_decrypt_isolation (jsonParse : List Nat → Except String JsonValue)
    (fp : Nat) (subs : List EncryptedSubmission) (N K : Nat)
    (hN : subs.length = N)
    (hK : (subs.filter
      (fun s => (okOf (processSubmission jsonParse fp s)).isSome)).length = K) :
    decryptLoop (processSubmission jsonParse fp) subs =
      some (subs.filterMap (fun s => okOf (processSubmission jsonParse fp s)), N - K)
    ∧ (subs.filterMap (fun s => okOf (processSubmission jsonParse fp s))).length = K := by
  have htot : ∀ s ∈ subs, (processSubmission jsonParse fp s).isSome :=
    fun s _ => processSubmission_isSome jsonParse fp s
  have hlen := filterMap_okOf_length (fun s => okOf (processSubmission jsonParse fp s)) subs
  have hskip := filter_not_length
    (fun s => (okOf (processSubmission jsonParse fp s)).isSome) subs
  constructor
  · rw [decryptLoop_eq _ _ htot, hskip, hK, hN]
  · rw [hlen, hK]

theorem take_append_left {α : Type} (p v : List α) (k : Nat) (hk : k ≤ p.length) :
    (p ++ v).take k = p.take k := by
  induction p generalizing k with
  | nil =>
    have : k = 0 := by simpa using hk
    simp [this]
  | cons c cs ih =>
    cases k with
    | zero => simp
    | succ k' => simp [ih k' (by simpa using hk)]

theorem string_ne_of_take (s t : String) (k : Nat)
    (h : s.data.take k ≠ t.data.take k) : s ≠ t :=
  fun he => h (by rw [he])

theorem append_data_take (p v : String) (k : Nat) (hk : k ≤ p.data.length) :
    (p ++ v).data.take k = p.data.take k := by
  rw [String.data_append]
  exact take_append_left p.data v.data k hk

/-- C7: form-key derivation is deterministic: two invocations of
`derive_form_privkey` with equal `(master_priv, form_id)` inputs yield equal results.
In this embedding `deriveFormPrivkey` is a pure function of its two arguments, which
is exactly the source situation: the Rust function reads no mutable or ambient
state. -/
theorem derive_deterministic (m1 m2 : Nat) (f1 f2 : String)
    (hm : m1 = m2) (hf : f1 = f2) :
    deriveFormPrivkey m1 f1 = deriveFormPrivkey m2 f2 := by rw [hm, hf]

theorem derive_deterministic_witness :
    deriveFormPrivkey 1 "x" = deriveFormPrivkey 1 "x" :=
  derive_deterministic 1 1 "x" "x" rfl rfl

/-- C10: whenever `derive_form_privkey` succeeds, the returned scalar is nonzero and
strictly below the secp256k1 group order; in particular the `tweak_add_assign` step
returns an error rather than a zero key when `master + tweak ≡ 0 (mod order)`. -/
theorem derive_ok_valid_scalar (m : Nat) (fid : String) (k : Nat)
    (h : deriveFormPrivkey m fid = .ok k) : 0 < k ∧ k < secpN := by
  unfold deriveFormPrivkey at h
  split at h
  · exact Except.noConfusion h
  · rename_i t hp
    unfold tweakAdd at h
    split at h
    · exact Except.noConfusion h
    · rename_i k2 heq
      injection h with h'
      subst h'
      split at heq
      · exact Except.noConfusion heq
      · injection heq with h2
        subst h2
        exact ⟨Nat.pos_of_ne_zero (by assumption), Nat.mod_lt _ (by decide)⟩

set_option maxRecDepth 20000 in
set_option maxHeartbeats 2000000 in
theorem derive_ok_valid_scalar_witness :
    deriveFormPrivkey 1 "x" = .ok sampleDerived
    ∧ (0 < sampleDerived ∧ sampleDerived < secpN) :=
  ⟨by decide, derive_ok_valid_scalar 1 "x" sampleDerived (by decide)⟩

/-- C2 (amended): for every valid nonzero master scalar, `derive_form_privkey`
computes `tweak = SHA256("near-forms:v1:" || form_id)` as a big-endian scalar, fails
if `tweak = 0` or `tweak ≥ curve_order`, fails also when `master + tweak ≡ 0 (mod
curve_order)` (the `tweak_add_assign` zero check), and otherwise returns
`master + tweak (mod curve_order)`. -/
theorem derive_formula (m : Nat) (fid : String) (_hm : 0 < m) (_hmN : m < secpN) :
    deriveFormPrivkey m fid =
      if tweakOf fid = 0 ∨ secpN ≤ tweakOf fid then
        .error "Failed to create tweak: InvalidSecretKey"
      else if (m + tweakOf fid) % secpN = 0 then
        .error "Failed to derive private key: TweakOutOfRange"
      else .ok ((m + tweakOf fid) % secpN) := by
  have hlen := sha256_length (derivationDomain ++ strBytes fid)
  unfold deriveFormPrivkey tweakAdd secretKeyParse tweakOf
  rw [if_neg (by rw [hlen]; exact fun hc => hc rfl)]
  by_cases h0 : beToNat (sha256 (derivationDomain ++ strBytes fid)) = 0
      ∨ secpN ≤ beToNat (sha256 (derivationDomain ++ strBytes fid))
  · rw [if_pos h0, if_pos h0]
    try rfl
  · rw [if_neg h0, if_neg h0]
    dsimp only
    by_cases hz : (m + beToNat (sha256 (derivationDomain ++ strBytes fid))) % secpN = 0
    · rw [if_pos hz, if_pos hz]
      try rfl
    · rw [if_neg hz, if_neg hz]
      try rfl

set_option maxRecDepth 20000 in
set_option maxHeartbeats 2000000 in
theorem derive_formula_witness :
    (0 < 1 ∧ (1 : Nat) < secpN)
    ∧ deriveFormPrivkey 1 "x" =
        (if tweakOf "x" = 0 ∨ secpN ≤ tweakOf "x" then
          .error "Failed to create tweak: InvalidSecretKey"
        else if (1 + tweakOf "x") % secpN = 0 then
          .error "Failed to derive private key: TweakOutOfRange"
        else .ok ((1 + tweakOf "x") % secpN)) :=
  ⟨⟨by decide, by decide⟩, derive_formula 1 "x" (by decide) (by decide)⟩

set_option maxRecDepth 20000 in
set_option maxHeartbeats 2000000 in
/-- C2 (counterexample): `tweakSumZeroMaster = curve_order - tweakOf "x"` is a valid
nonzero master scalar and the tweak for form id "x" is nonzero and below the curve
order, yet `derive_form_privkey` returns an error — not `master + tweak (mod
curve_order)` as the claim states for every in-range tweak. -/
theorem derive_tweak_range_only_counterexample :
    0 < tweakSumZeroMaster ∧ tweakSumZeroMaster < secpN
    ∧ 0 < tweakOf "x" ∧ tweakOf "x" < secpN
    ∧ deriveFormPrivkey tweakSumZeroMaster "x" =
        .error "Failed to derive private key: TweakOutOfRange"
    ∧ deriveFormPrivkey tweakSumZeroMaster "x" ≠
        .ok ((tweakSumZeroMaster + tweakOf "x") % secpN) := by
  refine ⟨by decide, by decide, by decide, by decide, by decide, by decide⟩

/-- C5 (code bug): the `Input` enum declared in types.rs has only the
`ReadResponses` and `SubmitForm` variants, so the derived action-tag parser rejects
`GetMasterPublicKey` while accepting the two declared tags — although main.rs
dispatches on an `Input::GetMasterPublicKey` variant (and builds an
`Output::GetMasterPublicKey`), neither of which types.rs declares. -/
theorem input_parser_rejects_get_master_public_key :
    parseInput "GetMasterPublicKey" none =
      .error "unknown variant `GetMasterPublicKey`, expected `ReadResponses` or `SubmitForm`"
    ∧ parseInput "GetMasterPublicKey" (some "00") =
      .error "unknown variant `GetMasterPublicKey`, expected `ReadResponses` or `SubmitForm`"
    ∧ parseInput "ReadResponses" none = .ok .readResponses
    ∧ parseInput "SubmitForm" (some "00") = .ok (.submitForm ⟨"00"⟩) := by
  refine ⟨rfl, rfl, rfl, rfl⟩

/-- C3: a `ReadResponses` invocation whose verified caller is absent, or differs by
exact string comparison from the fetched form's `creator_id`, returns an
authorization error, and its event trace contains neither a master-key read nor a
key-derivation call. -/
theorem read_responses_auth_short_circuit (jsonParse : List Nat → Except String JsonValue)
    (env : Env)
    (h : env.signer = none
       ∨ ∃ u url form, env.signer = some u ∧ env.databaseUrl = some url
          ∧ env.getForm = .ok form ∧ u ≠ form.creator_id) :
    ∃ e evts, handleReadResponses jsonParse env = some (.error e, evts)
      ∧ (e = "Authentication required - signer_account_id not available"
         ∨ e = "Not authorized to read responses")
      ∧ Event.loadMasterKey ∉ evts ∧ Event.deriveKey ∉ evts := by
  rcases h with hnone | ⟨u, url, form, hu, hurl, hform, hne⟩
  · refine ⟨"Authentication required - signer_account_id not available", [], ?_, .inl rfl,
      by simp, by simp⟩
    unfold handleReadResponses
    rw [hnone]
  · refine ⟨"Not authorized to read responses", [.fetchForm], ?_, .inr rfl,
      by simp, by simp⟩
    unfold handleReadResponses getDatabaseUrl
    rw [hu, hurl, hform]
    dsimp only
    rw [if_pos hne]

theorem read_responses_auth_short_circuit_witness :
    (envNoSigner.signer = none)
    ∧ (∃ e evts, handleReadResponses jsonParseNone envNoSigner = some (.error e, evts)
        ∧ (e = "Authentication required - signer_account_id not available"
           ∨ e = "Not authorized to read responses")
        ∧ Event.loadMasterKey ∉ evts ∧ Event.deriveKey ∉ evts) :=
  ⟨rfl, read_responses_auth_short_circuit jsonParseNone envNoSigner (Or.inl rfl)⟩

/-- C4: any input that is shorter than 65 bytes, or whose first four bytes are not
the "EC01" magic, or whose 33-byte ephemeral-key field is not a valid compressed
point, is rejected by `decrypt_blob` with an empty trace of cryptographic
operations — no ECDH multiplication, key derivation, or AEAD decryption runs. -/
theorem decrypt_blob_rejects_before_crypto (fp : Nat) (b : List Nat)
    (h : b.length < 65 ∨ b.take 4 ≠ ec01Magic
       ∨ (∃ pe, parsePoint ((b.take 37).drop 4) = .error pe)) :
    ∃ e, decryptBlob fp b = some (.error e, []) := by
  by_cases h4 : b.length ≤ 4
  · refine ⟨magicErrMsg, ?_⟩
    unfold decryptBlob
    rw [if_pos h4]
  · have e0 : slice? b 0 4 = some ((b.take 4).drop 0) := slice?_eq b 0 4 (by omega) (by omega)
    by_cases hmagic : b.take 4 = ec01Magic
    case neg =>
      refine ⟨magicErrMsg, ?_⟩
      unfold decryptBlob
      rw [if_neg h4, e0]
      dsimp only
      rw [List.drop_zero, if_pos hmagic]
    case pos =>
      by_cases h65 : b.length < 65
      · refine ⟨tooShortMsg b.length, ?_⟩
        unfold decryptBlob decryptEcdh
        rw [if_neg h4, e0]
        dsimp only
        rw [List.drop_zero, if_neg (fun hc => hc hmagic), if_pos h65]
      · rcases h with h | h | ⟨pe, hpe⟩
        · omega
        · exact absurd hmagic h
        · refine ⟨ephPubkeyMsg pe, ?_⟩
          have e1 : slice? b 4 37 = some ((b.take 37).drop 4) :=
            slice?_eq b 4 37 (by omega) (by omega)
          unfold decryptBlob decryptEcdh
          rw [if_neg h4, e0]
          dsimp only
          rw [List.drop_zero, if_neg (fun hc => hc hmagic), if_neg h65, e1]
          dsimp only
          rw [hpe]

theorem decrypt_blob_rejects_before_crypto_witness :
    ([] : List Nat).length < 65
    ∧ (∃ e, decryptBlob 1 [] = some (.error e, [])) :=
  ⟨by decide, decrypt_blob_rejects_before_crypto 1 [] (Or.inl (by decide))⟩

theorem append3_take (a b c : String) (k : Nat) (hk : k ≤ a.data.length) :
    ((a ++ b) ++ c).data.take k = a.data.take k := by
  rw [append_data_take (a ++ b) c k (by rw [String.data_append, List.length_append]; omega)]
  exact append_data_take a b k hk

set_option maxRecDepth 100000 in
set_option maxHeartbeats 4000000 in
/-- C6 (counterexample): two concrete envelopes that fail at different steps of
`decrypt_blob` — an invalid ephemeral point versus an authentication-tag mismatch
after a full ECDH + HKDF + AEAD run — return different error messages, so the errors
are distinguishable, contradicting the claimed single indistinguishable opaque
error. -/
theorem decrypt_errors_distinguishable_counterexample :
    decryptBlob 1 badPointEnvelope = some (.error (ephPubkeyMsg .invalidPublicKey), [])
    ∧ decryptBlob 1 badTagEnvelope
        = some (.error chachaFailedMsg, [.ecdhMul, .hkdfDerive, .aeadDecrypt])
    ∧ ephPubkeyMsg .invalidPublicKey ≠ chachaFailedMsg := by
  refine ⟨by decide, by decide, by decide⟩

/-- C6 (amended): every failing step of `decrypt_blob` yields an error of the single
Rust error type, but the message is step-specific rather than opaque: an
invalid-ephemeral-point failure returns the "Invalid ephemeral pubkey" message,
which differs from the messages of the too-short, wrong-magic, HKDF and
AEAD-failure steps, so failures at different steps are distinguishable by the error
returned. -/
theorem decrypt_error_step_specific (fp : Nat) (b : List Nat) (pe : SecpErr)
    (hlen : 65 ≤ b.length) (hmagic : b.take 4 = ec01Magic)
    (hpe : parsePoint ((b.take 37).drop 4) = .error pe) :
    decryptBlob fp b = some (.error (ephPubkeyMsg pe), [])
    ∧ ephPubkeyMsg pe ≠ chachaFailedMsg
    ∧ (∀ n, ephPubkeyMsg pe ≠ tooShortMsg n)
    ∧ ephPubkeyMsg pe ≠ magicErrMsg
    ∧ ephPubkeyMsg pe ≠ hkdfExpandFailedMsg := by
  refine ⟨?_, ?_, ?_, ?_, ?_⟩
  · have h4 : ¬b.length ≤ 4 := by omega
    have h65 : ¬b.length < 65 := by omega
    have e0 : slice? b 0 4 = some ((b.take 4).drop 0) := slice?_eq b 0 4 (by omega) (by omega)
    have e1 : slice? b 4 37 = some ((b.take 37).drop 4) := slice?_eq b 4 37 (by omega) (by omega)
    unfold decryptBlob decryptEcdh
    rw [if_neg h4, e0]
    dsimp only
    rw [List.drop_zero, if_neg (fun hc => hc hmagic), if_neg h65, e1]
    dsimp only
    rw [hpe]
  · apply string_ne_of_take _ _ 10
    unfold ephPubkeyMsg
    rw [append_data_take _ _ 10 (by decide)]
    decide
  · intro n
    apply string_ne_of_take _ _ 10
    unfold ephPubkeyMsg tooShortMsg
    rw [append_data_take _ _ 10 (by decide), append3_take _ _ _ 10 (by decide)]
    decide
  · apply string_ne_of_take _ _ 10
    unfold ephPubkeyMsg
    rw [append_data_take _ _ 10 (by decide)]
    decide
  · apply string_ne_of_take _ _ 10
    unfold ephPubkeyMsg
    rw [append_data_take _ _ 10 (by decide)]
    decide

theorem decrypt_error_step_specific_witness :
    (65 ≤ badPointEnvelope.length ∧ badPointEnvelope.take 4 = ec01Magic
     ∧ parsePoint ((badPointEnvelope.take 37).drop 4) = .error .invalidPublicKey)
    ∧ (decryptBlob 1 badPointEnvelope = some (.error (ephPubkeyMsg .invalidPublicKey), [])
       ∧ ephPubkeyMsg .invalidPublicKey ≠ chachaFailedMsg
       ∧ (∀ n, ephPubkeyMsg .invalidPublicKey ≠ tooShortMsg n)
       ∧ ephPubkeyMsg .invalidPublicKey ≠ magicErrMsg
       ∧ ephPubkeyMsg .invalidPublicKey ≠ hkdfExpandFailedMsg) :=
  ⟨⟨by decide, by decide, by decide⟩,
   decrypt_error_step_specific 1 badPointEnvelope .invalidPublicKey
     (by decide) (by decide) (by decide)⟩

/-- C8: a `SubmitForm` invocation validates the hex blob before storage: decode
failure, structural invalidity (short, wrong magic, invalid ephemeral point) and
oversize (> 200 KB decoded) are all rejected with an error and with no
`create_submission` call in the trace; moreover the oversize rejection carries the
distinct "too large" message, different from every structural and decode error
message. -/
theorem submit_form_validation (env : Env) (input : SubmitFormInput)
    (h : (∃ e, hexDecode input.encrypted_answers = .error e)
       ∨ ∃ bytes, hexDecode input.encrypted_answers = .ok bytes ∧
          (bytes.length < 65 ∨ bytes.take 4 ≠ ec01Magic
           ∨ (∃ pe, parsePoint ((bytes.drop 4).take 33) = .error pe)
           ∨ 204800 < bytes.length)) :
    ((∃ e, (handleSubmitForm env input).1 = .error e)
      ∧ Event.createSubmission ∉ (handleSubmitForm env input).2)
    ∧ (∀ u bytes, env.signer = some u →
        hexDecode input.encrypted_answers = .ok bytes →
        65 ≤ bytes.length → bytes.take 4 = ec01Magic →
        (∃ pt, parsePoint ((bytes.drop 4).take 33) = .ok pt) →
        204800 < bytes.length →
        (handleSubmitForm env input).1 = .error (submitTooLargeMsg bytes.length)
        ∧ (∀ k, submitTooLargeMsg bytes.length ≠ submitTooShortMsg k)
        ∧ submitTooLargeMsg bytes.length ≠ submitMagicMsg
        ∧ (∀ pe, submitTooLargeMsg bytes.length ≠ submitPointMsg pe)
        ∧ (∀ he, submitTooLargeMsg bytes.length ≠ submitHexMsg he)) := by
  constructor
  · cases hs : env.signer with
    | none =>
      refine ⟨⟨submitAuthMsg, ?_⟩, ?_⟩ <;> simp [handleSubmitForm, hs]
    | some u =>
      rcases h with ⟨e, he⟩ | ⟨bytes, hb, hcase⟩
      · refine ⟨⟨submitHexMsg e, ?_⟩, ?_⟩ <;> simp [handleSubmitForm, hs, he]
      · by_cases h65 : bytes.length < 65
        · refine ⟨⟨submitTooShortMsg bytes.length, ?_⟩, ?_⟩ <;>
            simp [handleSubmitForm, hs, hb, h65]
        · by_cases hmag : bytes.take 4 = ec01Magic
          case neg =>
            refine ⟨⟨submitMagicMsg, ?_⟩, ?_⟩ <;>
              simp [handleSubmitForm, hs, hb, h65, hmag]
          case pos =>
            cases hpt : parsePoint ((bytes.drop 4).take 33) with
            | error pe =>
              refine ⟨⟨submitPointMsg pe, ?_⟩, ?_⟩ <;>
                simp [handleSubmitForm, hs, hb, h65, hmag, hpt]
            | ok pt =>
              have hsize : 204800 < bytes.length := by
                rcases hcase with hc | hc | ⟨pe, hc⟩ | hc
                · omega
                · exact absurd hmag hc
                · rw [hpt] at hc; exact Except.noConfusion hc
                · exact hc
              refine ⟨⟨submitTooLargeMsg bytes.length, ?_⟩, ?_⟩ <;>
                simp [handleSubmitForm, hs, hb, h65, hmag, hpt, hsize]
  · intro u bytes hs hb h65 hmag hptEx hsize
    obtain ⟨pt, hpt⟩ := hptEx
    refine ⟨?_, ?_, ?_, ?_, ?_⟩
    · simp [handleSubmitForm, hs, hb, hmag, hpt, hsize, show ¬bytes.length < 65 by omega]
    · intro k
      apply string_ne_of_take _ _ 23
      unfold submitTooLargeMsg submitTooShortMsg
      rw [append3_take _ _ _ 23 (by decide), append3_take _ _ _ 23 (by decide)]
      decide
    · apply string_ne_of_take _ _ 23
      unfold submitTooLargeMsg
      rw [append3_take _ _ _ 23 (by decide)]
      decide
    · intro pe
      apply string_ne_of_take _ _ 23
      unfold submitTooLargeMsg submitPointMsg
      rw [append3_take _ _ _ 23 (by decide), append_data_take _ _ 23 (by decide)]
      decide
    · intro he
      apply string_ne_of_take _ _ 23
      unfold submitTooLargeMsg submitHexMsg
      rw [append3_take _ _ _ 23 (by decide), append_data_take _ _ 23 (by decide)]
      decide

theorem submit_form_validation_witness :
    (∃ e, hexDecode ("zz" : String) = .error e)
    ∧ (((∃ e, (handleSubmitForm envNoSigner ⟨"zz"⟩).1 = .error e)
         ∧ Event.createSubmission ∉ (handleSubmitForm envNoSigner ⟨"zz"⟩).2)
       ∧ (∀ u bytes, envNoSigner.signer = some u →
           hexDecode ("zz" : String) = .ok bytes →
           65 ≤ bytes.length → bytes.take 4 = ec01Magic →
           (∃ pt, parsePoint ((bytes.drop 4).take 33) = .ok pt) →
           204800 < bytes.length →
           (handleSubmitForm envNoSigner ⟨"zz"⟩).1 = .error (submitTooLargeMsg bytes.length)
           ∧ (∀ k, submitTooLargeMsg bytes.length ≠ submitTooShortMsg k)
           ∧ submitTooLargeMsg bytes.length ≠ submitMagicMsg
           ∧ (∀ pe, submitTooLargeMsg bytes.length ≠ submitPointMsg pe)
           ∧ (∀ he, submitTooLargeMsg bytes.length ≠ submitHexMsg he))) :=
  ⟨⟨.invalidChar 'z' 0, by decide⟩,
   submit_form_validation envNoSigner ⟨"zz"⟩ (Or.inl ⟨.invalidChar 'z' 0, by decide⟩)⟩

theorem batch_decrypt_isolation_witness :
    (sampleBadSubs.length = 2
     ∧ (sampleBadSubs.filter
         (fun s => (okOf (processSubmission jsonParseNone 1 s)).isSome)).length = 0)
    ∧ (decryptLoop (processSubmission jsonParseNone 1) sampleBadSubs =
        some (sampleBadSubs.filterMap (fun s => okOf (processSubmission jsonParseNone 1 s)),
          2 - 0)
       ∧ (sampleBadSubs.filterMap
           (fun s => okOf (processSubmission jsonParseNone 1 s))).length = 0) :=
  ⟨⟨rfl, rfl⟩, batch_decrypt_isolation jsonParseNone 1 sampleBadSubs 2 0 rfl rfl⟩
